import Mathlib

/-!
Verification of the playwriter-nat multiplexing relay.

This file is a shallow embedding of the two relay cores of the repository:

* `PlaywriterRelay` (the one-backend multiplexer): its write serializer
  (`writeToServe` / `processWriteQueue`), its correlation table
  (`messageIdMap`), its per-client stdout routing handler (`outputHandler`),
  its client-data handler, its auth gate in `startServer`, and its
  per-session `cleanup`.
* The reflector broadcast relay (`src/reflector/src/index.ts`): its
  `validateToken`, its websocket `message` handler, and its `close` handler.

JavaScript `Map`s are embedded as association lists in insertion order
(`Map.set` replaces the value of the first matching key in place or appends,
`Map.delete` removes the key), JS `Set`s as duplicate-free lists in insertion
order, and the regex scans of message chunks as explicit scanning functions
over the character list of the chunk.
-/

namespace PlaywriterNat

/-- Association-list lookup: the value of the first entry with the given key,
modelling JS `Map.get`. -/
def lookupA {α β : Type} [DecidableEq α] : List (α × β) → α → Option β
  | [], _ => none
  | p :: rest, a => if p.1 = a then some p.2 else lookupA rest a

/-- Association-list update, modelling JS `Map.set`: replaces the value of the
first entry with the given key in place, or appends a new entry. -/
def setA {α β : Type} [DecidableEq α] : List (α × β) → α → β → List (α × β)
  | [], a, b => [(a, b)]
  | p :: rest, a, b => if p.1 = a then (a, b) :: rest else p :: setA rest a b

/-- Association-list deletion, modelling JS `Map.delete`: removes every entry
with the given key (map keys are unique, so at most one is present). -/
def eraseA {α β : Type} [DecidableEq α] : List (α × β) → α → List (α × β)
  | [], _ => []
  | p :: rest, a => if p.1 = a then eraseA rest a else p :: eraseA rest a

/-- Element deletion on a list used as a JS `Set` (or as the key set of a
JS `Map`): removes every occurrence of the element. -/
def delElem {α : Type} [DecidableEq α] : List α → α → List α
  | [], _ => []
  | x :: rest, a => if x = a then delElem rest a else x :: delElem rest a

/-- Element insertion on a list used as a JS `Set` (`Set.add`): appends the
element unless it is already present. -/
def addSet {α : Type} [DecidableEq α] (l : List α) (x : α) : List α :=
  if x ∈ l then l else l ++ [x]

/-- Pairing each list element with its index counting from `n`, used to state
which fresh message ids a cleanup run hands to its release requests. -/
def indexFrom {α : Type} : Nat → List α → List (Nat × α)
  | _, [] => []
  | n, x :: xs => (n, x) :: indexFrom (n + 1) xs

/-! ### Chunk scanning

The relay extracts a correlation identifier from each chunk with
`str.match(/"id"\s*:\s*(\d+)/)` followed by `parseInt` on the digit group,
and extracts page handles with `str.match(/"pageId"\s*:\s*"([^"]+)"/)` plus
two `String.includes` checks.  These scans are embedded as functions over the
chunk's character list: a match of the whole pattern is attempted at each
position from the left, mirroring regex search semantics. -/

/-- Whitespace class of the regex escape used by the source patterns. -/
def isWsChar (c : Char) : Bool :=
  c == ' ' || c == '\t' || c == '\n' || c == '\r' || c == '\x0b' || c == '\x0c'

/-- Numeric value of a digit run, as `parseInt` computes it on the group
matched by the digits of the pattern. -/
def parseDigits (l : List Char) : Nat :=
  l.foldl (fun a c => a * 10 + (c.toNat - 48)) 0

/-- Attempt to match the id pattern (quote, `id`, quote, optional whitespace,
colon, optional whitespace, one or more digits) at the head of the list. -/
def matchIdAt : List Char → Option Nat
  | '"' :: 'i' :: 'd' :: '"' :: rest =>
    match rest.dropWhile isWsChar with
    | ':' :: r2 =>
      let ds := (r2.dropWhile isWsChar).takeWhile Char.isDigit
      if ds = [] then none else some (parseDigits ds)
    | _ => none
  | _ => none

/-- Leftmost match of the id pattern anywhere in the list. -/
def findId : List Char → Option Nat
  | [] => none
  | c :: rest =>
    match matchIdAt (c :: rest) with
    | some n => some n
    | none => findId rest

/-- Identifier extraction of the relay: leftmost numeric id field of the
chunk, or `none` when the pattern does not match anywhere. -/
def extractId (s : String) : Option Nat :=
  findId s.data

/-- Whether the pattern list occurs at the head of the text list. -/
def isSubAt : List Char → List Char → Bool
  | [], _ => true
  | _ :: _, [] => false
  | p :: ps, c :: cs => p == c && isSubAt ps cs

/-- Whether the pattern list occurs anywhere in the text list, modelling
JS `String.includes`. -/
def containsSubAux : List Char → List Char → Bool
  | pat, [] => pat.isEmpty
  | pat, c :: cs => isSubAt pat (c :: cs) || containsSubAux pat cs

/-- JS `String.includes` on strings. -/
def containsSub (s pat : String) : Bool :=
  containsSubAux pat.data s.data

/-- Attempt to match the pageId pattern (quote, `pageId`, quote, optional
whitespace, colon, optional whitespace, quoted nonempty run of non-quote
characters) at the head of the list. -/
def matchPageIdAt : List Char → Option String
  | '"' :: 'p' :: 'a' :: 'g' :: 'e' :: 'I' :: 'd' :: '"' :: rest =>
    match rest.dropWhile isWsChar with
    | ':' :: r2 =>
      match r2.dropWhile isWsChar with
      | '"' :: r4 =>
        let v := r4.takeWhile (fun c => c != '"')
        if v = [] then none
        else if (r4.dropWhile (fun c => c != '"')) = [] then none
        else some (String.mk v)
      | _ => none
    | _ => none
  | _ => none

/-- Leftmost match of the pageId pattern anywhere in the list. -/
def findPageId : List Char → Option String
  | [] => none
  | c :: rest =>
    match matchPageIdAt (c :: rest) with
    | some v => some v
    | none => findPageId rest

/-- Page-handle extraction of `outputHandler`: the chunk must contain the
substrings `createPage` and a quoted `result` key, and then the pageId
pattern is matched. -/
def pageCreated (s : String) : Option String :=
  if containsSub s "createPage" && containsSub s "\"result\"" then
    findPageId s.data
  else none

/-! ### Write Serializer

Embedding of `writeToServe` / `processWriteQueue`.  The serializer state
carries the source fields `writeQueue` and `isWriting` plus the presence of
the backend process (`serveUp`, always true while the relay serves), and
three observation lists: `pending` (payloads handed to `stdin.write` whose
callback has not yet fired), `dispatched` (every payload handed to the
backend channel, in dispatch order), and `completed` (each settled write's
payload with `true` for resolve and `false` for reject), plus the ghost list
`enqueued` of every payload ever passed to `writeToServe`, in order. -/

structure WriterState where
  writeQueue : List String
  isWriting : Bool
  serveUp : Bool
  pending : List String
  dispatched : List String
  completed : List (String × Bool)
  enqueued : List String
deriving DecidableEq

/-- Initial serializer state of a freshly started relay server. -/
def winit : WriterState :=
  { writeQueue := [], isWriting := false, serveUp := true,
    pending := [], dispatched := [], completed := [], enqueued := [] }

/-- The drain step `processWriteQueue`: returns unchanged when a write is in
flight, the queue is empty, or the backend process is absent; otherwise
shifts the head of the queue and hands it to the backend write. -/
def processWriteQueue (w : WriterState) : WriterState :=
  match w.writeQueue with
  | [] => w
  | p :: rest =>
    if w.isWriting || !w.serveUp then w
    else
      { w with isWriting := true, writeQueue := rest,
               pending := w.pending ++ [p], dispatched := w.dispatched ++ [p] }

/-- The enqueue step `writeToServe`: pushes the payload and triggers the
drain. -/
def wenqueue (w : WriterState) (p : String) : WriterState :=
  processWriteQueue
    { w with writeQueue := w.writeQueue ++ [p], enqueued := w.enqueued ++ [p] }

/-- The write-completion callback of `stdin.write`: clears `isWriting`,
settles the item's promise (resolve on success, reject on error), and
re-enters the drain. -/
def wcomplete (w : WriterState) (ok : Bool) : WriterState :=
  match w.pending with
  | [] => w
  | p :: rest =>
    processWriteQueue
      { w with isWriting := false, pending := rest,
               completed := w.completed ++ [(p, ok)] }

/-- States of the serializer reachable from the initial state by any
interleaving of enqueues and write completions. -/
inductive WReachable : WriterState → Prop where
  | init : WReachable winit
  | enqueue (w : WriterState) (p : String) (h : WReachable w) :
      WReachable (wenqueue w p)
  | complete (w : WriterState) (ok : Bool) (h : WReachable w) :
      WReachable (wcomplete w ok)

/-- Inductive invariant of the serializer: at most one write in flight, the
dispatch sequence followed by the still-queued payloads is exactly the
enqueue sequence, the `isWriting` flag tracks the in-flight write, and the
backend process is present. -/
def WInv (w : WriterState) : Prop :=
  w.pending.length ≤ 1
  ∧ w.dispatched ++ w.writeQueue = w.enqueued
  ∧ (w.isWriting = true ↔ w.pending ≠ [])
  ∧ w.serveUp = true

/-! ### Relay state and client sessions

Embedding of the `PlaywriterRelay` class state and of the per-connection
closures installed by `startServer` / `forwardClientToServe`.  The per-client
closure record (`clientInfo`) survives teardown (cleanup flips its `closed`
flag), so the model keeps every session ever created in `sessions`, while
`activeClients` holds the key set of `this.clients`, `handlers` the client
ids whose `outputHandler` is currently attached to the backend stdout (in
attachment order), and `clientMessageIds` the key set of
`this.clientMessageIds` (whose values alias each session's `messageIds` set
and are therefore not duplicated here).  Client ids are random 8-byte hex
strings, so a newly accepted connection's id is fresh and registration is
modelled as an append. -/

structure ClientInfo where
  closed : Bool
  pages : List String
  messageIds : List Nat
deriving DecidableEq

structure RelayState where
  sessions : List (String × ClientInfo)
  activeClients : List String
  handlers : List String
  clientMessageIds : List String
  messageIdMap : List (Nat × String)
  pageOwnership : List (String × String)
  writer : WriterState
  nextMessageId : Nat
deriving DecidableEq

/-- State of a freshly started relay server (`new PlaywriterRelay()` with the
serve process spawned). -/
def relayInit : RelayState :=
  { sessions := [], activeClients := [], handlers := [],
    clientMessageIds := [], messageIdMap := [], pageOwnership := [],
    writer := winit, nextMessageId := 1 }

/-- The body of `forwardClientToServe`: registers the session, its message-id
set, and its stdout `outputHandler`.  When the serve process is absent the
socket is ended and nothing is registered. -/
def forwardClientToServe (st : RelayState) (cid : String) : RelayState :=
  if st.writer.serveUp = false then st
  else
    { st with
      sessions := st.sessions ++ [(cid, { closed := false, pages := [], messageIds := [] })],
      activeClients := st.activeClients ++ [cid],
      clientMessageIds := st.clientMessageIds ++ [cid],
      handlers := st.handlers ++ [cid] }

/-- JS `String.prototype.trim`: strips leading and trailing whitespace. -/
def jsTrim (s : String) : String :=
  String.mk (((s.data.dropWhile isWsChar).reverse.dropWhile isWsChar).reverse)

/-- The `socket.once('data')` auth gate of `startServer`: the first chunk is
trimmed and compared against the configured token; on mismatch the socket is
ended with no state recorded, on match the connection is forwarded to the
shared serve process. -/
def connectionFirstData (st : RelayState) (token cid data : String) : RelayState :=
  if jsTrim data ≠ token then st
  else forwardClientToServe st cid

/-- The `socket.on('data')` handler of an admitted client: scans the chunk
for a numeric id (recording it in the session's `messageIds` and in
`messageIdMap`, last write wins) and enqueues the chunk on the Write
Serializer. -/
def clientData (st : RelayState) (cid chunk : String) : RelayState :=
  let st1 :=
    match lookupA st.sessions cid with
    | none => st
    | some info =>
      match extractId chunk with
      | none => st
      | some mid =>
        { st with
          sessions := setA st.sessions cid
            { info with messageIds := addSet info.messageIds mid },
          messageIdMap := setA st.messageIdMap mid cid }
  { st1 with writer := wenqueue st1.writer chunk }

/-- State change performed by the matching client's `outputHandler` when it
delivers a routed chunk: the correlation entry is removed, the session's
`messageIds` loses the id, and a created page (when the chunk reports one) is
recorded in the session's `pages` and in the global `pageOwnership` index. -/
def applyDelivery (st : RelayState) (cid : String) (info : ClientInfo)
    (mid : Nat) (chunk : String) : RelayState :=
  match pageCreated chunk with
  | some pid =>
    { st with
      sessions := setA st.sessions cid
        { info with messageIds := delElem info.messageIds mid,
                    pages := addSet info.pages pid },
      messageIdMap := eraseA st.messageIdMap mid,
      pageOwnership := setA st.pageOwnership pid cid }
  | none =>
    { st with
      sessions := setA st.sessions cid
        { info with messageIds := delElem info.messageIds mid },
      messageIdMap := eraseA st.messageIdMap mid }

/-- One client's `outputHandler` acting on a backend stdout chunk.  The
accumulator carries the relay state and the list of `(client, chunk)` writes
performed so far; the handler writes the chunk verbatim to its own socket
only when the chunk's id maps to this client. -/
def runHandler (chunk : String) (acc : RelayState × List (String × String))
    (cid : String) : RelayState × List (String × String) :=
  match lookupA acc.1.sessions cid with
  | none => acc
  | some info =>
    if info.closed then acc
    else
      match extractId chunk with
      | none => acc
      | some mid =>
        match lookupA acc.1.messageIdMap mid with
        | none => acc
        | some target =>
          if target = cid then
            (applyDelivery acc.1 cid info mid chunk, acc.2 ++ [(cid, chunk)])
          else acc

/-- A backend stdout `data` event: every attached `outputHandler` runs in
attachment order.  Returns the final relay state and the writes performed. -/
def stdoutData (st : RelayState) (chunk : String) :
    RelayState × List (String × String) :=
  st.handlers.foldl (runHandler chunk) (st, [])

/-- The synthesized release request emitted by cleanup for one page, exactly
as `JSON.stringify` serializes it. -/
def closePageCmd (pageId : String) (mid : Nat) : String :=
  "\x7b\"jsonrpc\":\"2.0\",\"id\":" ++ toString mid
    ++ ",\"method\":\"closePage\",\"params\":\x7b\"pageId\":\"" ++ pageId
    ++ "\"\x7d\x7d"

/-- The `clientInfo.pages.forEach` loop of cleanup: for each page, enqueue a
`closePage` request with a fresh `nextMessageId` on the Write Serializer and
remove the page from the global ownership index. -/
def closePages : RelayState → List String → RelayState
  | st, [] => st
  | st, pid :: rest =>
    closePages
      { st with
        writer := wenqueue st.writer (closePageCmd pid st.nextMessageId),
        nextMessageId := st.nextMessageId + 1,
        pageOwnership := eraseA st.pageOwnership pid } rest

/-- Session teardown (`cleanup` closure, fired on socket `end` or `error`):
a no-op when the session is already closed, otherwise flips the `closed`
flag, removes the session from the active-client map, releases every owned
page, drops the session's correlation entries, removes its
`clientMessageIds` entry, and detaches its `outputHandler`. -/
def cleanup (st : RelayState) (cid : String) : RelayState :=
  match lookupA st.sessions cid with
  | none => st
  | some info =>
    if info.closed then st
    else
      let st1 : RelayState :=
        { st with
          sessions := setA st.sessions cid { info with closed := true },
          activeClients := delElem st.activeClients cid }
      let st2 := closePages st1 info.pages
      { st2 with
        messageIdMap := info.messageIds.foldl (fun m mid => eraseA m mid) st2.messageIdMap,
        clientMessageIds := delElem st2.clientMessageIds cid,
        handlers := delElem st2.handlers cid }

/-! ### Reflector broadcast relay

Embedding of `src/reflector/src/index.ts`: per-connection state, the
keyed-hash token validator (the SHA-256 hex digest is an abstract function —
the relevant property is that its output is 64 hex characters, hence 64
bytes), the websocket `message` handler installed by `/connect`, and the
`close` handler.  Replies and relayed messages are recorded as a list of
`(target connection id, output)` pairs in send order. -/

structure Conn where
  id : String
  subdomain : String
  authenticated : Bool
deriving DecidableEq

structure ReflState where
  conns : List Conn
  subToConn : List (String × String)
  remoteClients : List String
deriving DecidableEq

/-- Reflector state with no connections. -/
def reflInit : ReflState :=
  { conns := [], subToConn := [], remoteClients := [] }

/-- Kind of a successfully parsed websocket message: an `auth` message with
its `token` field (empty string when the field is absent or empty, both falsy
in JS), a `ping`, or any other JSON payload. -/
inductive MsgKind where
  | auth (token : String)
  | ping
  | other
deriving DecidableEq

/-- A parsed message together with the raw text that was received (the raw
text is what gets relayed to the other participants). -/
structure PMsg where
  raw : String
  kind : MsgKind
deriving DecidableEq

/-- Outputs the message handler can send on a websocket. -/
inductive Out where
  | authOk
  | authFail
  | notAuthenticated
  | pong
  | relay (raw : String)
deriving DecidableEq

/-- First connection record with the given id, modelling
`ClientConnections.get`. -/
def findConn : List Conn → String → Option Conn
  | [], _ => none
  | c :: rest, cid => if c.id = cid then some c else findConn rest cid

/-- Mutation `connection.authenticated = true` on the shared record. -/
def setAuth (l : List Conn) (cid : String) : List Conn :=
  l.map fun c => if c.id = cid then { c with authenticated := true } else c

/-- Node's `crypto.timingSafeEqual` on the UTF-8 buffers of two strings: it
throws a `RangeError` when the byte lengths differ and otherwise reports
byte equality. -/
def timingSafeEqual (a b : String) : Except String Bool :=
  if a.utf8ByteSize = b.utf8ByteSize then Except.ok (a == b)
  else Except.error "RangeError: Input buffers must have the same byte length"

/-- The token the reflector expects for a subdomain: the hex SHA-256 digest
of `subdomain:AUTH_SECRET`, with the digest left abstract. -/
def expectedToken (digest : String → String) (secret sub : String) : String :=
  digest (sub ++ ":" ++ secret)

/-- The reflector's `validateToken`: a missing or empty token is falsy in JS
and is rejected cleanly; otherwise the supplied token is compared against the
expected digest with `crypto.timingSafeEqual`, which can throw. -/
def validateToken (digest : String → String) (secret : String)
    (token : Option String) (sub : String) : Except String Bool :=
  match token with
  | none => Except.ok false
  | some t =>
    if t = "" then Except.ok false
    else timingSafeEqual t (expectedToken digest secret sub)

/-- The guard `data.type === 'auth' && data.token` of the message handler:
the token of an auth message when that token is truthy. -/
def isAuthToken : MsgKind → Option String
  | MsgKind.auth t => if t = "" then none else some t
  | _ => none

/-- The websocket `message` handler of `/connect` for the connection `cid`
(whose closure captured its registration subdomain, stored in its record):
auth messages with a truthy token are re-validated (a validation exception is
swallowed by the surrounding catch; a failed validation additionally closes
the socket, which later fires the close handler); every other message is
gated on a previous successful validation; pings are answered; anything else
is relayed to every other authenticated connection on the same subdomain. -/
def handleMessage (digest : String → String) (secret : String)
    (st : ReflState) (cid : String) (m : PMsg) :
    ReflState × List (String × Out) :=
  match findConn st.conns cid with
  | none => (st, [])
  | some c =>
    match isAuthToken m.kind with
    | some t =>
      match validateToken digest secret (some t) c.subdomain with
      | Except.ok true => ({ st with conns := setAuth st.conns cid }, [(cid, Out.authOk)])
      | Except.ok false => (st, [(cid, Out.authFail)])
      | Except.error _ => (st, [])
    | none =>
      if c.authenticated = false then (st, [(cid, Out.notAuthenticated)])
      else if m.kind = MsgKind.ping then (st, [(cid, Out.pong)])
      else
        (st, st.conns.filterMap fun k =>
          if k.id ≠ cid ∧ k.subdomain = c.subdomain ∧ k.authenticated = true
          then some (k.id, Out.relay m.raw) else none)

/-- The `/connect` upgrade handler: registers the fresh connection
(unauthenticated) and makes it the owner of its subdomain, replacing any
prior owner (last-registered wins). -/
def handleConnect (st : ReflState) (cid sub : String) : ReflState :=
  { st with conns := st.conns ++ [{ id := cid, subdomain := sub, authenticated := false }],
            subToConn := setA st.subToConn sub cid }

/-- The websocket `close` handler of a connection: unconditionally deletes
the connection record, the subdomain registration, and the remote-client
record. -/
def handleClose (st : ReflState) (cid sub : String) : ReflState :=
  { st with conns := st.conns.filter (fun c => c.id ≠ cid),
            subToConn := eraseA st.subToConn sub,
            remoteClients := delElem st.remoteClients cid }

/-! ### Concrete states used by witnesses and counterexamples -/

/-- A relay state with two admitted clients `A` and `B`, one outstanding
request of each, and two pages owned by `A`. -/
def stTwo : RelayState :=
  { sessions := [("A", { closed := false, pages := ["p1", "p2"], messageIds := [5] }),
                 ("B", { closed := false, pages := [], messageIds := [9] })],
    activeClients := ["A", "B"], handlers := ["A", "B"],
    clientMessageIds := ["A", "B"],
    messageIdMap := [(5, "A"), (9, "B")],
    pageOwnership := [("p1", "A"), ("p2", "A")],
    writer := winit, nextMessageId := 3 }

/-- A backend response chunk whose id matches client `A`'s request. -/
def respFive : String := "\x7b\"id\":5,\"result\":true\x7d"

/-- A backend chunk carrying no id field. -/
def noIdChunk : String := "\x7b\"jsonrpc\":\"2.0\"\x7d"

/-- A backend chunk whose id matches no live correlation entry. -/
def respStale : String := "\x7b\"id\":77\x7d"

/-- An outbound client message whose `id` field holds a string token rather
than a numeric one. -/
def strIdMsg : String := "\x7b\"id\":\"abc\",\"method\":\"createPage\"\x7d"

/-- The relay state after a single client `A` has been admitted. -/
def stOne : RelayState := forwardClientToServe relayInit "A"

/-- A reflector state with two authenticated connections on subdomain `s`. -/
def stRefl : ReflState :=
  { conns := [{ id := "A", subdomain := "s", authenticated := true },
              { id := "B", subdomain := "s", authenticated := true },
              { id := "C", subdomain := "t", authenticated := true },
              { id := "D", subdomain := "s", authenticated := false }],
    subToConn := [("s", "B"), ("t", "C")],
    remoteClients := [] }

/-- A fixed stand-in for the SHA-256 hex digest: a constant 64-character hex
string, sharing with the real digest the only property the claims use. -/
def digest64 : String → String :=
  fun _ => "aaaaaaaaaaaaaaaaaaaaaaaaaaaaaaaaaaaaaaaaaaaaaaaaaaaaaaaaaaaaaaaa"

/-! ### Association-list lemmas -/

theorem lookupA_setA_self {α β : Type} [DecidableEq α]
    (m : List (α × β)) (a : α) (b : β) : lookupA (setA m a b) a = some b := by
  induction m with
  | nil => simp [setA, lookupA]
  | cons p rest ih =>
    by_cases h : p.1 = a
    · simp [setA, h, lookupA]
    · simp [setA, h, lookupA, ih]

theorem mem_eraseA {α β : Type} [DecidableEq α]
    (m : List (α × β)) (a : α) (p : α × β) :
    p ∈ eraseA m a ↔ p ∈ m ∧ p.1 ≠ a := by
  induction m with
  | nil => simp [eraseA]
  | cons q rest ih =>
    by_cases h : q.1 = a
    · simp only [eraseA, if_pos h, ih, List.mem_cons]
      constructor
      · rintro ⟨hm, hne⟩; exact ⟨Or.inr hm, hne⟩
      · rintro ⟨hor, hne⟩
        cases hor with
        | inl he => exact absurd (he ▸ h) hne
        | inr hm => exact ⟨hm, hne⟩
    · simp only [eraseA, if_neg h, List.mem_cons, ih]
      constructor
      · rintro (he | ⟨hm, hne⟩)
        · exact ⟨Or.inl he, he ▸ h⟩
        · exact ⟨Or.inr hm, hne⟩
      · rintro ⟨hor, hne⟩
        cases hor with
        | inl he => exact Or.inl he
        | inr hm => exact Or.inr ⟨hm, hne⟩

theorem lookupA_eq_none_iff {α β : Type} [DecidableEq α]
    (m : List (α × β)) (a : α) :
    lookupA m a = none ↔ ∀ p ∈ m, p.1 ≠ a := by
  induction m with
  | nil => simp [lookupA]
  | cons q rest ih =>
    by_cases h : q.1 = a
    · simp [lookupA, h]
    · simp [lookupA, h, ih]

theorem lookupA_eraseA_self {α β : Type} [DecidableEq α]
    (m : List (α × β)) (a : α) : lookupA (eraseA m a) a = none := by
  rw [lookupA_eq_none_iff]
  intro p hp
  exact ((mem_eraseA m a p).1 hp).2

theorem lookupA_isSome_mem {α β : Type} [DecidableEq α]
    (m : List (α × β)) (a : α) (b : β) (h : lookupA m a = some b) :
    (a, b) ∈ m := by
  induction m with
  | nil => simp [lookupA] at h
  | cons q rest ih =>
    by_cases hq : q.1 = a
    · simp only [lookupA, if_pos hq] at h
      cases h
      have hqe : q = (a, q.2) := by
        cases q
        simp_all
      exact List.mem_cons.2 (Or.inl hqe.symm)
    · simp only [lookupA, if_neg hq] at h
      exact List.mem_cons_of_mem _ (ih h)

theorem mem_foldl_eraseA {α β : Type} [DecidableEq α]
    (ks : List α) (m : List (α × β)) (p : α × β)
    (h : p ∈ ks.foldl (fun acc k => eraseA acc k) m) :
    p ∈ m ∧ p.1 ∉ ks := by
  induction ks generalizing m with
  | nil => simpa using h
  | cons k rest ih =>
    rw [List.foldl_cons] at h
    obtain ⟨hmem, hnot⟩ := ih (eraseA m k) h
    obtain ⟨hm, hne⟩ := (mem_eraseA m k p).1 hmem
    exact ⟨hm, by simp [hne, hnot]⟩

theorem mem_delElem {α : Type} [DecidableEq α] (l : List α) (a x : α) :
    x ∈ delElem l a ↔ x ∈ l ∧ x ≠ a := by
  induction l with
  | nil => simp [delElem]
  | cons y rest ih =>
    by_cases h : y = a
    · simp only [delElem, if_pos h, ih, List.mem_cons]
      constructor
      · rintro ⟨hm, hne⟩
        exact ⟨Or.inr hm, hne⟩
      · rintro ⟨hor, hne⟩
        cases hor with
        | inl he => exact absurd (he.trans h) hne
        | inr hm => exact ⟨hm, hne⟩
    · simp only [delElem, if_neg h, List.mem_cons, ih]
      constructor
      · rintro (he | ⟨hm, hne⟩)
        · exact ⟨Or.inl he, fun hxa => h (he.symm.trans hxa)⟩
        · exact ⟨Or.inr hm, hne⟩
      · rintro ⟨hor, hne⟩
        cases hor with
        | inl he => exact Or.inl he
        | inr hm => exact Or.inr ⟨hm, hne⟩

/-- Splitting a list at the first occurrence of a member. -/
theorem mem_split_first {α : Type} [DecidableEq α] {a : α} {l : List α}
    (h : a ∈ l) : ∃ s t, l = s ++ a :: t ∧ a ∉ s := by
  induction l with
  | nil => cases h
  | cons x rest ih =>
    by_cases hx : x = a
    · exact ⟨[], rest, by simp [hx], by simp⟩
    · have hmem : a ∈ rest := by
        cases List.mem_cons.1 h with
        | inl he => exact absurd he.symm hx
        | inr hm => exact hm
      obtain ⟨s, t, heq, hnot⟩ := ih hmem
      refine ⟨x :: s, t, by simp [heq], ?_⟩
      simp only [List.mem_cons]
      rintro (he | hm)
      · exact hx he.symm
      · exact hnot hm

/-! ### Write Serializer invariants -/

theorem winv_process (w : WriterState) (h : WInv w) : WInv (processWriteQueue w) := by
  obtain ⟨h1, h2, h3, h4⟩ := h
  unfold processWriteQueue
  split
  · exact ⟨h1, h2, h3, h4⟩
  · rename_i p rest hq
    split
    · exact ⟨h1, h2, h3, h4⟩
    · rename_i hcond
      have hwf : w.isWriting = false := by
        cases hiw : w.isWriting
        · rfl
        · exact absurd (by rw [hiw]; rfl : (w.isWriting || !w.serveUp) = true) hcond
      have hpend : w.pending = [] := by
        by_contra hne
        have := h3.2 hne
        rw [hwf] at this
        exact Bool.false_ne_true this
      refine ⟨?_, ?_, ?_, h4⟩
      · simp [hpend]
      · show (w.dispatched ++ [p]) ++ rest = w.enqueued
        rw [List.append_assoc, List.singleton_append, ← hq, h2]
      · show (true = true ↔ w.pending ++ [p] ≠ [])
        simp

theorem winv_enqueue (w : WriterState) (p : String) (h : WInv w) :
    WInv (wenqueue w p) := by
  obtain ⟨h1, h2, h3, h4⟩ := h
  unfold wenqueue
  apply winv_process
  refine ⟨h1, ?_, h3, h4⟩
  show w.dispatched ++ (w.writeQueue ++ [p]) = w.enqueued ++ [p]
  rw [← List.append_assoc, h2]

theorem winv_complete (w : WriterState) (ok : Bool) (h : WInv w) :
    WInv (wcomplete w ok) := by
  obtain ⟨h1, h2, h3, h4⟩ := h
  unfold wcomplete
  cases hp : w.pending with
  | nil =>
    show WInv w
    exact ⟨h1, h2, h3, h4⟩
  | cons p rest =>
    have hrest : rest = [] := by
      rw [hp] at h1
      simpa using h1
    apply winv_process
    exact ⟨by simp [hrest], h2, by simp [hrest], h4⟩

theorem winv_reachable (w : WriterState) (h : WReachable w) : WInv w := by
  induction h with
  | init => exact ⟨by simp [winit], by simp [winit], by simp [winit], by simp [winit]⟩
  | enqueue w p _ ih => exact winv_enqueue w p ih
  | complete w ok _ ih => exact winv_complete w ok ih

/-- The drain step never changes the ghost list of enqueued payloads. -/
theorem processWriteQueue_enqueued (w : WriterState) :
    (processWriteQueue w).enqueued = w.enqueued := by
  unfold processWriteQueue
  split
  · rfl
  · split <;> rfl

/-- The drain step never changes the serve-process flag. -/
theorem processWriteQueue_serveUp (w : WriterState) :
    (processWriteQueue w).serveUp = w.serveUp := by
  unfold processWriteQueue
  split
  · rfl
  · split <;> rfl

/-- Enqueueing appends exactly the given payload to the enqueue sequence. -/
theorem wenqueue_enqueued (w : WriterState) (p : String) :
    (wenqueue w p).enqueued = w.enqueued ++ [p] := by
  unfold wenqueue
  rw [processWriteQueue_enqueued]

/-- C2.  The Write Serializer keeps at most one backend write in flight in
every reachable state, and the payloads dispatched to the Backend Channel,
followed by the payloads still queued, are exactly the payloads enqueued, in
enqueue order across all enqueuers — each payload is dispatched whole, so the
bytes observed at the Backend Channel are a concatenation of complete
individual payloads in enqueue order, never an interleaving. -/
theorem writeSerializer_single_flight_fifo (w : WriterState)
    (h : WReachable w) :
    w.pending.length ≤ 1 ∧ w.dispatched ++ w.writeQueue = w.enqueued := by
  have hi := winv_reachable w h
  exact ⟨hi.1, hi.2.1⟩

/-- Witness for C2 at a concrete reachable state: two payloads enqueued while
the first write is still in flight, then the first write completes. -/
theorem writeSerializer_single_flight_fifo_witness :
    (wcomplete (wenqueue (wenqueue winit "pay1") "pay2") true).pending.length ≤ 1
    ∧ (wcomplete (wenqueue (wenqueue winit "pay1") "pay2") true).dispatched
        ++ (wcomplete (wenqueue (wenqueue winit "pay1") "pay2") true).writeQueue
      = (wcomplete (wenqueue (wenqueue winit "pay1") "pay2") true).enqueued :=
  writeSerializer_single_flight_fifo _
    (WReachable.complete _ true
      (WReachable.enqueue _ "pay2" (WReachable.enqueue _ "pay1" WReachable.init)))

/-- C6.  When the backend write of payload `p` fails while payloads are still
queued, the completion callback rejects exactly that payload (recording
`(p, false)`) and immediately dispatches the next queued payload: a single
failed write never stalls the remaining queue. -/
theorem write_failure_isolated (w : WriterState) (p q : String)
    (qs : List String) (hp : w.pending = [p]) (hq : w.writeQueue = q :: qs)
    (hs : w.serveUp = true) :
    (wcomplete w false).completed = w.completed ++ [(p, false)]
    ∧ (wcomplete w false).dispatched = w.dispatched ++ [q]
    ∧ (wcomplete w false).pending = [q]
    ∧ (wcomplete w false).writeQueue = qs := by
  unfold wcomplete
  rw [hp]
  unfold processWriteQueue
  simp [hq, hs]

/-- Witness for C6: a failed write of `"bad"` with `"next"` still queued. -/
theorem write_failure_isolated_witness :
    (wcomplete
      { writeQueue := ["next"], isWriting := true, serveUp := true,
        pending := ["bad"], dispatched := ["bad"], completed := [],
        enqueued := ["bad", "next"] } false).completed = [] ++ [("bad", false)]
    ∧ (wcomplete
      { writeQueue := ["next"], isWriting := true, serveUp := true,
        pending := ["bad"], dispatched := ["bad"], completed := [],
        enqueued := ["bad", "next"] } false).dispatched = ["bad"] ++ ["next"]
    ∧ (wcomplete
      { writeQueue := ["next"], isWriting := true, serveUp := true,
        pending := ["bad"], dispatched := ["bad"], completed := [],
        enqueued := ["bad", "next"] } false).pending = ["next"]
    ∧ (wcomplete
      { writeQueue := ["next"], isWriting := true, serveUp := true,
        pending := ["bad"], dispatched := ["bad"], completed := [],
        enqueued := ["bad", "next"] } false).writeQueue = [] :=
  write_failure_isolated _ "bad" "next" [] rfl rfl rfl

/-! ### Cleanup lemmas -/

theorem closePages_sessions (ps : List String) (st : RelayState) :
    (closePages st ps).sessions = st.sessions := by
  induction ps generalizing st with
  | nil => rfl
  | cons p rest ih => rw [closePages, ih]

theorem closePages_activeClients (ps : List String) (st : RelayState) :
    (closePages st ps).activeClients = st.activeClients := by
  induction ps generalizing st with
  | nil => rfl
  | cons p rest ih => rw [closePages, ih]

theorem closePages_handlers (ps : List String) (st : RelayState) :
    (closePages st ps).handlers = st.handlers := by
  induction ps generalizing st with
  | nil => rfl
  | cons p rest ih => rw [closePages, ih]

theorem closePages_clientMessageIds (ps : List String) (st : RelayState) :
    (closePages st ps).clientMessageIds = st.clientMessageIds := by
  induction ps generalizing st with
  | nil => rfl
  | cons p rest ih => rw [closePages, ih]

theorem closePages_messageIdMap (ps : List String) (st : RelayState) :
    (closePages st ps).messageIdMap = st.messageIdMap := by
  induction ps generalizing st with
  | nil => rfl
  | cons p rest ih => rw [closePages, ih]

theorem closePages_pageOwnership (ps : List String) (st : RelayState) :
    (closePages st ps).pageOwnership
      = ps.foldl (fun m pid => eraseA m pid) st.pageOwnership := by
  induction ps generalizing st with
  | nil => rfl
  | cons p rest ih => rw [closePages, ih, List.foldl_cons]

theorem closePages_enqueued (ps : List String) (st : RelayState) :
    (closePages st ps).writer.enqueued
      = st.writer.enqueued
          ++ (indexFrom st.nextMessageId ps).map (fun x => closePageCmd x.2 x.1) := by
  induction ps generalizing st with
  | nil => simp [closePages, indexFrom]
  | cons p rest ih =>
    rw [closePages, ih]
    simp [indexFrom, wenqueue_enqueued, List.append_assoc]

/-- C4.  Session teardown is idempotent: running `cleanup` a second (or any
further) time after it has already run returns the state unchanged — no
additional release request is enqueued, no map entry is removed again, and
the model's total functions raise no error. -/
theorem cleanup_idempotent (st : RelayState) (cid : String) :
    cleanup (cleanup st cid) cid = cleanup st cid := by
  have hstop : ∀ (s : RelayState) (i : ClientInfo),
      lookupA s.sessions cid = some i → i.closed = true → cleanup s cid = s := by
    intro s i hli hci
    unfold cleanup
    rw [hli]
    simp [hci]
  cases hl : lookupA st.sessions cid with
  | none =>
    have h1 : cleanup st cid = st := by
      unfold cleanup
      rw [hl]
    rw [h1, h1]
  | some info =>
    cases hc : info.closed with
    | true =>
      have h1 : cleanup st cid = st := hstop st info hl hc
      rw [h1, h1]
    | false =>
      have hsess : (cleanup st cid).sessions
          = setA st.sessions cid { info with closed := true } := by
        unfold cleanup
        rw [hl]
        simp [hc, closePages_sessions]
      have hlook : lookupA (cleanup st cid).sessions cid
          = some { info with closed := true } := by
        rw [hsess]
        exact lookupA_setA_self _ _ _
      exact hstop _ _ hlook rfl

/-- C5.  The auth gate of the one-backend relay: a first chunk whose trimmed
text is not byte-for-byte the configured token leaves the relay state
untouched (the connection is ended, no session recorded); a matching token
registers the session in the active set, creates its session record, and
attaches its relaying output handler. -/
theorem auth_gate (st : RelayState) (token cid data : String)
    (hs : st.writer.serveUp = true) :
    (jsTrim data ≠ token → connectionFirstData st token cid data = st)
    ∧ (jsTrim data = token →
        (connectionFirstData st token cid data).sessions
            = st.sessions ++ [(cid, { closed := false, pages := [], messageIds := [] })]
        ∧ (connectionFirstData st token cid data).activeClients
            = st.activeClients ++ [cid]
        ∧ (connectionFirstData st token cid data).handlers
            = st.handlers ++ [cid]) := by
  constructor
  · intro h
    unfold connectionFirstData
    rw [if_pos h]
  · intro h
    unfold connectionFirstData forwardClientToServe
    rw [if_neg (by intro hh; exact hh h), if_neg (by rw [hs]; simp)]
    exact ⟨rfl, rfl, rfl⟩

/-- Witness for C5: the token `secret` rejects `wrong` and accepts
`" secret\n"` (trimmed). -/
theorem auth_gate_witness :
    (jsTrim "wrong" ≠ "secret"
      ∧ connectionFirstData relayInit "secret" "C1" "wrong" = relayInit)
    ∧ (jsTrim " secret\n" = "secret"
      ∧ (connectionFirstData relayInit "secret" "C2" " secret\n").activeClients
          = relayInit.activeClients ++ ["C2"]) :=
  ⟨⟨by decide, (auth_gate relayInit "secret" "C1" "wrong" rfl).1 (by decide)⟩,
   ⟨by decide,
    ((auth_gate relayInit "secret" "C2" " secret\n" rfl).2 (by decide)).2.1⟩⟩

/-! ### Output routing lemmas -/

/-- A handler does nothing on a chunk that carries no id. -/
theorem runHandler_id_none {chunk : String}
    (acc : RelayState × List (String × String)) (cid : String)
    (h : extractId chunk = none) : runHandler chunk acc cid = acc := by
  unfold runHandler
  cases hs : lookupA acc.1.sessions cid with
  | none => rfl
  | some info =>
    cases hc : info.closed with
    | true => simp [hc]
    | false => simp [hc, h]

/-- A handler does nothing when the chunk's id has no live entry. -/
theorem runHandler_entry_none {chunk : String} {mid : Nat}
    (acc : RelayState × List (String × String)) (cid : String)
    (hm : extractId chunk = some mid)
    (h : lookupA acc.1.messageIdMap mid = none) : runHandler chunk acc cid = acc := by
  unfold runHandler
  cases hs : lookupA acc.1.sessions cid with
  | none => rfl
  | some info =>
    cases hc : info.closed with
    | true => simp [hc]
    | false => simp [hc, hm, h]

/-- A handler does nothing when the chunk's id belongs to another client. -/
theorem runHandler_target_ne {chunk : String} {mid : Nat} {target : String}
    (acc : RelayState × List (String × String)) (cid : String)
    (hm : extractId chunk = some mid)
    (h : lookupA acc.1.messageIdMap mid = some target)
    (hne : target ≠ cid) : runHandler chunk acc cid = acc := by
  unfold runHandler
  cases hs : lookupA acc.1.sessions cid with
  | none => rfl
  | some info =>
    cases hc : info.closed with
    | true => simp [hc]
    | false => simp [hc, hm, h, hne]

theorem foldl_id_none {chunk : String} (hs : List String)
    (acc : RelayState × List (String × String))
    (h : extractId chunk = none) :
    hs.foldl (runHandler chunk) acc = acc := by
  induction hs with
  | nil => rfl
  | cons c cs ih => rw [List.foldl_cons, runHandler_id_none acc c h, ih]

theorem foldl_entry_none {chunk : String} {mid : Nat} (hs : List String)
    (acc : RelayState × List (String × String))
    (hm : extractId chunk = some mid)
    (h : lookupA acc.1.messageIdMap mid = none) :
    hs.foldl (runHandler chunk) acc = acc := by
  induction hs with
  | nil => rfl
  | cons c cs ih => rw [List.foldl_cons, runHandler_entry_none acc c hm h, ih]

theorem foldl_owner_not_mem {chunk : String} {mid : Nat} {owner : String}
    (hs : List String) (acc : RelayState × List (String × String))
    (hm : extractId chunk = some mid)
    (h : lookupA acc.1.messageIdMap mid = some owner)
    (hnm : owner ∉ hs) :
    hs.foldl (runHandler chunk) acc = acc := by
  induction hs with
  | nil => rfl
  | cons c cs ih =>
    have hne : owner ≠ c := fun he => hnm (by rw [he]; exact List.mem_cons_self c cs)
    rw [List.foldl_cons, runHandler_target_ne acc c hm h hne,
        ih (fun hmem => hnm (List.mem_cons_of_mem c hmem))]

/-- Delivery always removes the routed id's correlation entry. -/
theorem applyDelivery_messageIdMap (st : RelayState) (cid : String)
    (info : ClientInfo) (mid : Nat) (chunk : String) :
    (applyDelivery st cid info mid chunk).messageIdMap
      = eraseA st.messageIdMap mid := by
  unfold applyDelivery
  cases pageCreated chunk <;> rfl

/-- C1.  Backend output routing: a chunk whose id maps to a live session is
written verbatim to exactly that session's socket and to no other, and its
correlation entry is removed by the delivery; a chunk carrying no id, or an
id with no live entry, is delivered to no client and changes nothing. -/
theorem outputHandler_routing (st : RelayState) (chunk : String) :
    (∀ mid owner info,
        extractId chunk = some mid →
        lookupA st.messageIdMap mid = some owner →
        owner ∈ st.handlers →
        lookupA st.sessions owner = some info →
        info.closed = false →
        (stdoutData st chunk).2 = [(owner, chunk)]
          ∧ lookupA (stdoutData st chunk).1.messageIdMap mid = none)
    ∧ (extractId chunk = none → stdoutData st chunk = (st, []))
    ∧ (∀ mid, extractId chunk = some mid →
        lookupA st.messageIdMap mid = none → stdoutData st chunk = (st, [])) := by
  refine ⟨?_, ?_, ?_⟩
  · intro mid owner info hmid hlook hmem hsess hclosed
    obtain ⟨l1, l2, hsp, hnm⟩ := mem_split_first hmem
    have hfold1 : l1.foldl (runHandler chunk) (st, []) = (st, []) :=
      foldl_owner_not_mem l1 (st, []) hmid hlook hnm
    have hrun : runHandler chunk (st, []) owner
        = (applyDelivery st owner info mid chunk, [(owner, chunk)]) := by
      unfold runHandler
      simp [hsess, hclosed, hmid, hlook]
    have hgone : lookupA (applyDelivery st owner info mid chunk, [(owner, chunk)]).1.messageIdMap mid
        = none := by
      rw [applyDelivery_messageIdMap]
      exact lookupA_eraseA_self _ _
    have hfold2 :
        l2.foldl (runHandler chunk)
            (applyDelivery st owner info mid chunk, [(owner, chunk)])
          = (applyDelivery st owner info mid chunk, [(owner, chunk)]) :=
      foldl_entry_none l2 _ hmid hgone
    have hall : stdoutData st chunk
        = (applyDelivery st owner info mid chunk, [(owner, chunk)]) := by
      unfold stdoutData
      rw [hsp, List.foldl_append, hfold1, List.foldl_cons, hrun, hfold2]
    rw [hall]
    exact ⟨rfl, hgone⟩
  · intro h
    unfold stdoutData
    exact foldl_id_none st.handlers (st, []) h
  · intro mid hmid hnone
    unfold stdoutData
    exact foldl_entry_none st.handlers (st, []) hmid hnone

/-- Witness for C1: on `stTwo`, the response with id 5 is delivered to `A`
only and its entry is dropped, while a chunk without id and a chunk with a
stale id are delivered to nobody. -/
theorem outputHandler_routing_witness :
    ((stdoutData stTwo respFive).2 = [("A", respFive)]
      ∧ lookupA (stdoutData stTwo respFive).1.messageIdMap 5 = none)
    ∧ stdoutData stTwo noIdChunk = (stTwo, [])
    ∧ stdoutData stTwo respStale = (stTwo, []) :=
  ⟨(outputHandler_routing stTwo respFive).1 5 "A"
      { closed := false, pages := ["p1", "p2"], messageIds := [5] }
      rfl rfl (by decide) rfl rfl,
   (outputHandler_routing stTwo noIdChunk).2.1 rfl,
   (outputHandler_routing stTwo respStale).2.2 77 rfl rfl⟩

/-- C3.  Cleanup completeness: tearing down a live session that owns pages
`h1..hk` enqueues one synthesized `closePage` request per page on the Write
Serializer (with consecutive fresh message ids), removes every owned page
from the global page-ownership index, leaves no correlation entry owned by
the session in the correlation table, and removes the session from the
active-session set.  The hypothesis `hown` is the relay's operational
invariant that each live entry owned by a client is tracked in that client's
`messageIds` set (both are written and deleted together). -/
theorem cleanup_completeness (st : RelayState) (cid : String)
    (info : ClientInfo)
    (hs : lookupA st.sessions cid = some info)
    (hc : info.closed = false)
    (hown : ∀ p ∈ st.messageIdMap, p.2 = cid → p.1 ∈ info.messageIds) :
    (cleanup st cid).writer.enqueued
      = st.writer.enqueued
          ++ (indexFrom st.nextMessageId info.pages).map (fun x => closePageCmd x.2 x.1)
    ∧ (∀ h ∈ info.pages, lookupA (cleanup st cid).pageOwnership h = none)
    ∧ (∀ p ∈ (cleanup st cid).messageIdMap, p.2 ≠ cid)
    ∧ cid ∉ (cleanup st cid).activeClients := by
  have henq : (cleanup st cid).writer.enqueued
      = st.writer.enqueued
          ++ (indexFrom st.nextMessageId info.pages).map (fun x => closePageCmd x.2 x.1) := by
    unfold cleanup
    rw [hs]
    simp [hc, closePages_enqueued]
  have hpo : (cleanup st cid).pageOwnership
      = info.pages.foldl (fun m pid => eraseA m pid) st.pageOwnership := by
    unfold cleanup
    rw [hs]
    simp [hc, closePages_pageOwnership]
  have hmm : (cleanup st cid).messageIdMap
      = info.messageIds.foldl (fun m mid => eraseA m mid)
          st.messageIdMap := by
    unfold cleanup
    rw [hs]
    simp [hc, closePages_messageIdMap]
  have hac : (cleanup st cid).activeClients = delElem st.activeClients cid := by
    unfold cleanup
    rw [hs]
    simp [hc, closePages_activeClients]
  refine ⟨henq, ?_, ?_, ?_⟩
  · intro h hmemh
    rw [hpo, lookupA_eq_none_iff]
    intro p hp
    have := mem_foldl_eraseA info.pages st.pageOwnership p hp
    intro heq
    exact this.2 (heq ▸ hmemh)
  · intro p hp heq
    rw [hmm] at hp
    have := mem_foldl_eraseA info.messageIds st.messageIdMap p hp
    exact this.2 (hown p this.1 heq)
  · rw [hac]
    intro hmem
    exact ((mem_delElem st.activeClients cid cid).1 hmem).2 rfl

/-- Witness for C3: tearing down client `A` of `stTwo`, which owns pages
`p1` and `p2` and the outstanding request id 5. -/
theorem cleanup_completeness_witness :
    (cleanup stTwo "A").writer.enqueued
      = stTwo.writer.enqueued
          ++ (indexFrom stTwo.nextMessageId ["p1", "p2"]).map
              (fun x => closePageCmd x.2 x.1)
    ∧ (∀ h ∈ ["p1", "p2"], lookupA (cleanup stTwo "A").pageOwnership h = none)
    ∧ (∀ p ∈ (cleanup stTwo "A").messageIdMap, p.2 ≠ "A")
    ∧ "A" ∉ (cleanup stTwo "A").activeClients :=
  cleanup_completeness stTwo "A"
    { closed := false, pages := ["p1", "p2"], messageIds := [5] }
    rfl rfl (by decide)

/-- C7 counterexample: an outbound client message whose `id` field holds the
string token `"abc"` does not match the relay's numeric-only id pattern, so
no correlation entry is recorded for the issuing client, and the backend
response carrying that same string identifier is routed to no client —
refuting the claim that string request identifiers are correlated. -/
theorem string_id_not_correlated_cex :
    extractId strIdMsg = none
    ∧ (clientData stOne "A" strIdMsg).messageIdMap = []
    ∧ (stdoutData (clientData stOne "A" strIdMsg) strIdMsg).2 = [] :=
  ⟨rfl, rfl, rfl⟩

/-- C7 amended.  Correlation handles only numeric request identifiers: an
outbound client message in which the numeric id pattern matches gets a
correlation entry for the issuing client (and C1 routes the matching numeric
response back to it), while a message whose `id` value is a string — or any
message where the numeric pattern does not match — is treated as carrying no
identifier: no entry is recorded and a backend chunk with the same string
identifier is delivered to no client. -/
theorem numeric_id_only_correlation (st : RelayState) (cid chunk : String)
    (info : ClientInfo) (hs : lookupA st.sessions cid = some info) :
    (extractId chunk = none →
        (clientData st cid chunk).messageIdMap = st.messageIdMap
        ∧ (clientData st cid chunk).sessions = st.sessions
        ∧ stdoutData st chunk = (st, []))
    ∧ (∀ n, extractId chunk = some n →
        (clientData st cid chunk).messageIdMap = setA st.messageIdMap n cid) := by
  constructor
  · intro h
    refine ⟨?_, ?_, ?_⟩
    · unfold clientData
      rw [hs]
      simp [h]
    · unfold clientData
      rw [hs]
      simp [h]
    · unfold stdoutData
      exact foldl_id_none st.handlers (st, []) h
  · intro n h
    unfold clientData
    rw [hs]
    simp [h]

/-- Witness for the amended C7: on the one-client state, the string-id
message records nothing, while a numeric-id message records its entry. -/
theorem numeric_id_only_correlation_witness :
    ((clientData stOne "A" strIdMsg).messageIdMap = stOne.messageIdMap
      ∧ (clientData stOne "A" strIdMsg).sessions = stOne.sessions
      ∧ stdoutData stOne strIdMsg = (stOne, []))
    ∧ (clientData stOne "A" "\x7b\"id\":12\x7d").messageIdMap
        = setA stOne.messageIdMap 12 "A" :=
  ⟨(numeric_id_only_correlation stOne "A" strIdMsg
      { closed := false, pages := [], messageIds := [] } rfl).1 rfl,
   (numeric_id_only_correlation stOne "A" "\x7b\"id\":12\x7d"
      { closed := false, pages := [], messageIds := [] } rfl).2 12 rfl⟩

/-! ### Reflector broadcast relay -/

/-- C8 counterexample: a `ping` message from the authenticated connection `A`
on subdomain `s` is answered with a `pong` to `A` only and forwarded to
nobody, although `B` is a currently-registered, authenticated connection on
the same subdomain distinct from the sender — refuting the claim that every
message from a validated connection is forwarded to exactly the other
authenticated same-channel connections. -/
theorem ping_not_broadcast_cex :
    ({ id := "B", subdomain := "s", authenticated := true } : Conn) ∈ stRefl.conns
    ∧ ("B" : String) ≠ "A"
    ∧ findConn stRefl.conns "A"
        = some { id := "A", subdomain := "s", authenticated := true }
    ∧ (handleMessage digest64 "sec" stRefl "A"
        { raw := "\x7b\"type\":\"ping\"\x7d", kind := MsgKind.ping }).2
        = [("A", Out.pong)] :=
  ⟨by decide, by decide, rfl, rfl⟩

/-- C8 amended.  For every non-control message (neither an auth message with
a truthy token nor a ping) from a connection that has previously passed
credential validation on channel `S`, the targets that receive it are
exactly the currently-registered authenticated connections on `S` other than
the sender, each receiving the raw message verbatim — never the sender; and
any message whose kind is not an auth-with-token (pings included) from a
connection that has not passed validation is forwarded to no one and
answered with a not-authenticated error. -/
theorem broadcast_routing_amended (digest : String → String) (secret : String)
    (st : ReflState) (cid : String) (c : Conn) (raw : String)
    (hc : findConn st.conns cid = some c) :
    (c.authenticated = true →
      ∀ tgt o,
        (tgt, o) ∈ (handleMessage digest secret st cid
            { raw := raw, kind := MsgKind.other }).2
          ↔ (o = Out.relay raw ∧ tgt ≠ cid
              ∧ ∃ k ∈ st.conns, k.id = tgt ∧ k.subdomain = c.subdomain
                  ∧ k.authenticated = true))
    ∧ (c.authenticated = false →
      ∀ kind : MsgKind, isAuthToken kind = none →
        handleMessage digest secret st cid { raw := raw, kind := kind }
          = (st, [(cid, Out.notAuthenticated)])) := by
  constructor
  · intro hauth tgt o
    have hmsg : (handleMessage digest secret st cid
        { raw := raw, kind := MsgKind.other }).2
        = st.conns.filterMap fun k =>
            if k.id ≠ cid ∧ k.subdomain = c.subdomain ∧ k.authenticated = true
            then some (k.id, Out.relay raw) else none := by
      unfold handleMessage
      rw [hc]
      simp [isAuthToken, hauth]
    rw [hmsg, List.mem_filterMap]
    constructor
    · rintro ⟨k, hk, hif⟩
      by_cases hcond : k.id ≠ cid ∧ k.subdomain = c.subdomain ∧ k.authenticated = true
      · rw [if_pos hcond] at hif
        have hpair := Option.some.inj hif
        have hid : k.id = tgt := congrArg Prod.fst hpair
        have ho : Out.relay raw = o := congrArg Prod.snd hpair
        exact ⟨ho.symm, hid ▸ hcond.1, k, hk, hid, hcond.2.1, hcond.2.2⟩
      · rw [if_neg hcond] at hif
        exact absurd hif (by simp)
    · rintro ⟨ho, htgt, k, hk, hid, hsub, hka⟩
      refine ⟨k, hk, ?_⟩
      rw [if_pos ⟨by rw [hid]; exact htgt, hsub, hka⟩, ho, hid]
  · intro hnauth kind hk
    unfold handleMessage
    rw [hc]
    simp [hk, hnauth]

/-- Witness for the amended C8: on `stRefl`, a data message from the
authenticated `A` reaches `B` (authenticated, same subdomain), and a data
message from the unauthenticated `D` is answered with the error only. -/
theorem broadcast_routing_amended_witness :
    ("B", Out.relay "hello")
        ∈ (handleMessage digest64 "sec" stRefl "A"
            { raw := "hello", kind := MsgKind.other }).2
    ∧ handleMessage digest64 "sec" stRefl "D"
        { raw := "x", kind := MsgKind.other }
        = (stRefl, [("D", Out.notAuthenticated)]) :=
  ⟨((broadcast_routing_amended digest64 "sec" stRefl "A"
      { id := "A", subdomain := "s", authenticated := true } "hello" rfl).1
      rfl "B" (Out.relay "hello")).mpr
      ⟨rfl, by decide,
       { id := "B", subdomain := "s", authenticated := true },
       by decide, rfl, rfl, rfl⟩,
   (broadcast_routing_amended digest64 "sec" stRefl "D"
      { id := "D", subdomain := "s", authenticated := false } "x" rfl).2
      rfl MsgKind.other rfl⟩

/-- C9.  The reflector's token validator throws instead of cleanly rejecting
whenever the supplied token is non-empty and its UTF-8 byte length differs
from the 64 bytes of the expected hex digest (Node's `timingSafeEqual`
raises a `RangeError` on unequal buffer lengths); only equal-length tokens
reach the comparison and yield a boolean. -/
theorem validateToken_length_throw (digest : String → String)
    (secret sub t : String)
    (hlen : (expectedToken digest secret sub).utf8ByteSize = 64) :
    (t ≠ "" → t.utf8ByteSize ≠ 64 →
        validateToken digest secret (some t) sub
          = Except.error "RangeError: Input buffers must have the same byte length")
    ∧ (t ≠ "" → t.utf8ByteSize = 64 →
        validateToken digest secret (some t) sub
          = Except.ok (t == expectedToken digest secret sub)) := by
  have hred : validateToken digest secret (some t) sub
      = if t = "" then Except.ok false
        else timingSafeEqual t (expectedToken digest secret sub) := rfl
  constructor
  · intro hne hsz
    rw [hred, if_neg hne]
    unfold timingSafeEqual
    rw [if_neg (fun hh => hsz (hh.trans hlen))]
  · intro hne hsz
    rw [hred, if_neg hne]
    unfold timingSafeEqual
    rw [if_pos (hsz.trans hlen.symm)]

/-- Witness for C9: the three-byte token `abc` makes the validator throw,
while a 64-byte non-matching token is cleanly rejected with `false`. -/
theorem validateToken_length_throw_witness :
    (("abc" : String) ≠ ""
      ∧ ("abc" : String).utf8ByteSize ≠ 64
      ∧ validateToken digest64 "sec" (some "abc") "s"
          = Except.error "RangeError: Input buffers must have the same byte length")
    ∧ validateToken digest64 "sec"
        (some "bbbbbbbbbbbbbbbbbbbbbbbbbbbbbbbbbbbbbbbbbbbbbbbbbbbbbbbbbbbbbbbb")
        "s"
        = Except.ok
            ("bbbbbbbbbbbbbbbbbbbbbbbbbbbbbbbbbbbbbbbbbbbbbbbbbbbbbbbbbbbbbbbb"
              == expectedToken digest64 "sec" "s") :=
  ⟨⟨by decide, by decide,
    (validateToken_length_throw digest64 "sec" "s" "abc" rfl).1
      (by decide) (by decide)⟩,
   (validateToken_length_throw digest64 "sec" "s"
      "bbbbbbbbbbbbbbbbbbbbbbbbbbbbbbbbbbbbbbbbbbbbbbbbbbbbbbbbbbbbbbbb" rfl).2
      (by decide) (by decide)⟩

/-- C10.  The close handler deletes the channel registration of its own
subdomain unconditionally: after `A` registers subdomain `s` and is replaced
as owner by `B` (last-registered wins), `A`'s disconnect still removes the
`s → B` mapping even though `B`'s connection remains registered, leaving the
channel with no owner. -/
theorem close_unregisters_channel_unconditionally (st : ReflState)
    (A B s : String) (hAB : B ≠ A) :
    lookupA (handleConnect (handleConnect st A s) B s).subToConn s = some B
    ∧ lookupA (handleClose (handleConnect (handleConnect st A s) B s) A s).subToConn
        s = none
    ∧ ({ id := B, subdomain := s, authenticated := false } : Conn)
        ∈ (handleClose (handleConnect (handleConnect st A s) B s) A s).conns := by
  refine ⟨?_, ?_, ?_⟩
  · simp only [handleConnect]
    exact lookupA_setA_self _ _ _
  · simp only [handleClose, handleConnect]
    exact lookupA_eraseA_self _ _
  · simp only [handleClose, handleConnect, List.mem_filter]
    exact ⟨by simp, by simp [hAB]⟩

/-- Witness for C10 on the empty reflector state with `A`, `B` on channel
`s`. -/
theorem close_unregisters_channel_unconditionally_witness :
    lookupA (handleConnect (handleConnect reflInit "A" "s") "B" "s").subToConn
        "s" = some "B"
    ∧ lookupA (handleClose
        (handleConnect (handleConnect reflInit "A" "s") "B" "s") "A" "s").subToConn
        "s" = none
    ∧ ({ id := "B", subdomain := "s", authenticated := false } : Conn)
        ∈ (handleClose
            (handleConnect (handleConnect reflInit "A" "s") "B" "s") "A" "s").conns :=
  close_unregisters_channel_unconditionally reflInit "A" "B" "s" (by decide)

end PlaywriterNat
